import Mathlib

/-!
Verification of the ResilienceDoctor resilience primitives.

Shallow embedding of the Python sources:
* `src/resilience_doctor/patterns/circuit_breaker.py`
* `src/resilience_doctor/patterns/retry.py`
* `src/resilience_doctor/monitoring/health.py`

Mutable objects become records passed explicitly; `time.time()` becomes an
explicit `now : Rat` argument at every point where the Python code reads the
clock; an exception raised by a wrapped operation becomes an explicit outcome
value handed to the embedded method.
-/

/-- States of a circuit breaker (`CircuitState` in `circuit_breaker.py`). -/
inductive CircuitState where
  | closed
  | open_
  | halfOpen
deriving DecidableEq, Repr

/-- `CircuitState.value`: the string value of each enum member. -/
def CircuitState.value : CircuitState → String
  | .closed => "closed"
  | .open_ => "open"
  | .halfOpen => "half_open"

/-- The mutable state and configuration of a `CircuitBreaker` object.
Configuration fields first (`failure_threshold`, `timeout`,
`success_threshold`, `name`), then the mutable fields set in `__init__`. -/
structure CircuitBreaker where
  failure_threshold : Nat
  timeout : Rat
  success_threshold : Nat
  name : String
  state_ : CircuitState
  failure_count : Nat
  success_count : Nat
  last_failure_time : Option Rat
deriving DecidableEq, Repr

namespace CircuitBreaker

/-- `CircuitBreaker.__init__`: fresh breaker from its configuration. -/
def mk_ (ft : Nat) (tmo : Rat) (st : Nat) (nm : String) : CircuitBreaker :=
  { failure_threshold := ft
    timeout := tmo
    success_threshold := st
    name := nm
    state_ := .closed
    failure_count := 0
    success_count := 0
    last_failure_time := none }

/-- `CircuitBreaker._should_attempt_reset`: whether enough time has passed
since the last failure. -/
def should_attempt_reset (b : CircuitBreaker) (now : Rat) : Bool :=
  match b.last_failure_time with
  | none => false
  | some t => now - t ≥ b.timeout

/-- The `state` property: reads the state, lazily performing the
OPEN → HALF_OPEN transition when the open duration has elapsed.  Returns the
state read together with the (possibly updated) object. -/
def state (b : CircuitBreaker) (now : Rat) : CircuitState × CircuitBreaker :=
  if b.state_ = .open_ ∧ b.should_attempt_reset now then
    let b' := { b with state_ := .halfOpen, success_count := 0 }
    (b'.state_, b')
  else
    (b.state_, b)

/-- `CircuitBreaker._trip`: open the circuit. -/
def trip (b : CircuitBreaker) : CircuitBreaker :=
  { b with state_ := .open_, success_count := 0 }

/-- `CircuitBreaker._reset`: close the circuit and zero both counters. -/
def reset_ (b : CircuitBreaker) : CircuitBreaker :=
  { b with state_ := .closed, failure_count := 0, success_count := 0 }

/-- `CircuitBreaker.reset`: the public manual reset. -/
def reset (b : CircuitBreaker) : CircuitBreaker :=
  b.reset_

/-- `CircuitBreaker._on_success`: bookkeeping after a successful call. -/
def on_success (b : CircuitBreaker) : CircuitBreaker :=
  if b.state_ = .halfOpen then
    let b' := { b with success_count := b.success_count + 1 }
    if b'.success_count ≥ b'.success_threshold then b'.reset_ else b'
  else if b.state_ = .closed then
    { b with failure_count := 0 }
  else
    b

/-- `CircuitBreaker._on_failure`: bookkeeping after a failed call; `now` is
the value of `time.time()` read inside the method. -/
def on_failure (b : CircuitBreaker) (now : Rat) : CircuitBreaker :=
  let b1 := { b with failure_count := b.failure_count + 1
                     last_failure_time := some now }
  if b1.state_ = .halfOpen then b1.trip
  else if b1.failure_count ≥ b1.failure_threshold then b1.trip
  else b1

end CircuitBreaker

/-- Outcome of invoking the wrapped operation: it returns a value or raises
an error, identified by its message. -/
inductive CallOutcome (α : Type) where
  | ok (v : α)
  | err (e : String)
deriving DecidableEq, Repr

/-- Result of `CircuitBreaker.call`: the operation's value, the breaker's own
`CircuitBreakerError` rejection, or the operation's error re-raised. -/
inductive CallResult (α : Type) where
  | ok (v : α)
  | circuitOpen (msg : String)
  | err (e : String)
deriving DecidableEq, Repr

namespace CircuitBreaker

/-- `CircuitBreaker.call`: run the operation through the breaker.  The
operation's behaviour is the `outcome` argument; the returned `Bool` records
whether the operation was invoked at all. -/
def call (b : CircuitBreaker) (now : Rat) (outcome : CallOutcome α) :
    CallResult α × CircuitBreaker × Bool :=
  let (cs, b1) := b.state now
  if cs = .open_ then
    (.circuitOpen ("Circuit breaker \x27" ++ b.name ++ "\x27 is OPEN"), b1, false)
  else
    match outcome with
    | .ok v => (.ok v, b1.on_success, true)
    | .err e => (.err e, b1.on_failure now, true)

/-- The read-only statistics snapshot returned by `get_stats`. -/
structure Stats where
  name : String
  state : String
  failure_count : Nat
  success_count : Nat
  last_failure_time : Option Rat
deriving DecidableEq, Repr

/-- `CircuitBreaker.get_stats`: builds the statistics dictionary from the
raw fields; the object is returned unchanged, mirroring that the method body
only reads `self`. -/
def get_stats (b : CircuitBreaker) : Stats × CircuitBreaker :=
  ({ name := b.name
     state := b.state_.value
     failure_count := b.failure_count
     success_count := b.success_count
     last_failure_time := b.last_failure_time }, b)

/-- Iterate `call` with a failing operation `n` times, all at instant `now`,
keeping only the breaker. -/
def applyFailures (b : CircuitBreaker) (now : Rat) (e : String) : Nat → CircuitBreaker
  | 0 => b
  | n + 1 => ((applyFailures b now e n).call now (CallOutcome.err e : CallOutcome Unit)).2.1

/-- Iterate `call` with a succeeding operation `n` times, all at instant
`now`, keeping only the breaker. -/
def applySuccesses (b : CircuitBreaker) (now : Rat) (v : α) : Nat → CircuitBreaker
  | 0 => b
  | n + 1 => ((applySuccesses b now v n).call now (.ok v)).2.1

end CircuitBreaker

/-- A breaker sitting OPEN since instant 0, used as concrete witness input. -/
def openBreaker : CircuitBreaker :=
  { CircuitBreaker.mk_ 2 60 2 "cb" with
      state_ := CircuitState.open_,
      failure_count := 2,
      last_failure_time := some 0 }

/-- A breaker sitting HALF_OPEN after its open period, used as concrete
witness input. -/
def halfOpenBreaker : CircuitBreaker :=
  { CircuitBreaker.mk_ 2 60 2 "cb" with
      state_ := CircuitState.halfOpen,
      failure_count := 2,
      last_failure_time := some 0 }

/-! ## Retry (`patterns/retry.py`, class `Retry`) -/

/-- The mutable state and configuration of a `Retry` policy object.  The
`exceptions` tuple is embedded as the membership predicate `retryable` on
error kinds; `attempts` is the instance attribute set in `__init__` and
overwritten inside `execute`. -/
structure Retry where
  max_attempts : Nat
  initial_delay : Rat
  backoff_factor : Rat
  retryable : String → Bool
  attempts : Nat

namespace Retry

/-- `Retry.__init__`: fresh policy from its configuration, `attempts = 0`. -/
def mk_ (ma : Nat) (idl bf : Rat) (retr : String → Bool) : Retry :=
  { max_attempts := ma
    initial_delay := idl
    backoff_factor := bf
    retryable := retr
    attempts := 0 }

end Retry

/-- Result of `Retry.execute`: the operation's value, a non-retryable error
propagated unchanged, or `RetryExhaustedError` chaining (`from`) the last
underlying error — `none` only on the degenerate `max_attempts = 0` path
where `last_exception` is still `None`. -/
inductive RetryResult (α : Type) where
  | ok (v : α)
  | raised (e : String)
  | exhausted (cause : Option String)
deriving DecidableEq, Repr

namespace Retry

/-- The `for attempt in range(max_attempts)` loop of `Retry.execute`.
`ops i` is the outcome of the `i`-th invocation of `func`; `fuel` is the
number of loop iterations left, `attempt` the current index, `last` the
`last_exception` variable, `curAttempts` the current value of
`self.attempts`.  Returns the result, the number of invocations of `func`
performed, and the final value of `self.attempts`. -/
def execLoop (r : Retry) (ops : Nat → CallOutcome α) (last : Option String)
    (attempt : Nat) (curAttempts : Nat) :
    Nat → RetryResult α × Nat × Nat
  | 0 => (.exhausted last, 0, curAttempts)
  | fuel + 1 =>
    let a := attempt + 1
    match ops attempt with
    | .ok v => (.ok v, 1, a)
    | .err e =>
      if r.retryable e then
        if fuel = 0 then
          (.exhausted (some e), 1, a)
        else
          let (res, n, fin) := r.execLoop ops (some e) (attempt + 1) a fuel
          (res, n + 1, fin)
      else
        (.raised e, 1, a)

/-- `Retry.execute`: run `func` (whose successive outcomes are `ops`) under
the retry policy.  Returns the result, the number of invocations of `func`,
and the policy object as it stands after the call. -/
def execute (r : Retry) (ops : Nat → CallOutcome α) :
    RetryResult α × Nat × Retry :=
  let (res, n, fin) := r.execLoop ops none 0 r.attempts r.max_attempts
  (res, n, { r with attempts := fin })

end Retry

/-! ## Health monitoring (`monitoring/health.py`) -/

/-- `HealthStatus` enum. -/
inductive HealthStatus where
  | healthy
  | degraded
  | unhealthy
deriving DecidableEq, Repr

/-- `HealthStatus.value`. -/
def HealthStatus.value : HealthStatus → String
  | .healthy => "healthy"
  | .degraded => "degraded"
  | .unhealthy => "unhealthy"

/-- The state of a `HealthCheck` object: configuration from `__init__` plus
the cached `last_*` fields.  The probe `check_fn` itself is external; its
behaviour is supplied to `check` as an outcome value. -/
structure HealthCheck where
  name : String
  critical : Bool
  timeout : Rat
  last_check_time : Option Rat
  last_status : Option HealthStatus
  last_error : Option String
deriving DecidableEq, Repr

/-- `HealthCheck.__init__`. -/
def HealthCheck.mk_ (nm : String) (crit : Bool) (tmo : Rat) : HealthCheck :=
  { name := nm
    critical := crit
    timeout := tmo
    last_check_time := none
    last_status := none
    last_error := none }

/-- The per-check result dictionary built by `HealthCheck.check`. -/
structure CheckResult where
  name : String
  status : String
  critical : Bool
  duration : Rat
  timestamp : Rat
  error : Option String
deriving DecidableEq, Repr

/-- `HealthCheck.check`: runs the probe and classifies the outcome.  The
probe's behaviour is `outcome` (`ok b` for a boolean return, `err e` for a
raised exception); `start` is the `time.time()` read at entry and
`duration` the measured elapsed time.  Always returns a result record — a
probe failure is converted, never propagated. -/
def HealthCheck.check (hc : HealthCheck) (outcome : CallOutcome Bool)
    (start duration : Rat) : CheckResult × HealthCheck :=
  match outcome with
  | .ok r =>
    let status : HealthStatus := if r then .healthy else .unhealthy
    ({ name := hc.name
       status := status.value
       critical := hc.critical
       duration := duration
       timestamp := start
       error := none },
     { hc with last_status := some status
               last_check_time := some start
               last_error := none })
  | .err e =>
    ({ name := hc.name
       status := HealthStatus.unhealthy.value
       critical := hc.critical
       duration := duration
       timestamp := start
       error := some e },
     { hc with last_status := some .unhealthy
               last_check_time := some start
               last_error := some e })

/-- One registered check of a `HealthMonitor` run, paired with its probe's
behaviour and timing for this `check_all` pass. -/
structure CheckRun where
  hc : HealthCheck
  outcome : CallOutcome Bool
  start : Rat
  duration : Rat

/-- The loop body of `HealthMonitor.check_all`: update the running overall
status with one check's result. -/
def stepStatus (overall : HealthStatus) (crit : Bool) (res : CheckResult) :
    HealthStatus :=
  if res.status = HealthStatus.unhealthy.value then
    if crit then .unhealthy
    else if overall = .healthy then .degraded
    else overall
  else overall

/-- The fold of `HealthMonitor.check_all` over the registered checks, in
registration order, starting from the running status `overall`. -/
def checkAllFrom (overall : HealthStatus) :
    List CheckRun → HealthStatus × List CheckResult
  | [] => (overall, [])
  | c :: rest =>
    let res := (c.hc.check c.outcome c.start c.duration).1
    let next := checkAllFrom (stepStatus overall c.hc.critical res) rest
    (next.1, res :: next.2)

/-- `HealthMonitor.check_all`: execute every registered check and aggregate
the overall status, starting from `HEALTHY`. -/
def check_all (checks : List CheckRun) : HealthStatus × List CheckResult :=
  checkAllFrom .healthy checks

/-- Whether one check run yields an UNHEALTHY result record. -/
def runUnhealthy (c : CheckRun) : Bool :=
  (c.hc.check c.outcome c.start c.duration).1.status = HealthStatus.unhealthy.value

/-! ## Circuit breaker lemmas and claims -/

/-- While CLOSED with a zero failure count, the first `k` failed calls with
`k < failure_threshold` leave the breaker CLOSED with `failure_count = k`. -/
theorem applyFailures_closed (b : CircuitBreaker) (now : Rat) (e : String)
    (hb : b.state_ = CircuitState.closed) (hc : b.failure_count = 0) :
    ∀ k, k < b.failure_threshold →
      CircuitBreaker.applyFailures b now e k =
        { b with failure_count := k,
                 last_failure_time :=
                   if k = 0 then b.last_failure_time else some now } := by
  intro k
  induction k with
  | zero =>
    intro _
    simp [CircuitBreaker.applyFailures, ← hc]
  | succ k ih =>
    intro hk
    have hk' : k < b.failure_threshold := Nat.lt_of_succ_lt hk
    rw [CircuitBreaker.applyFailures, ih hk']
    simp only [CircuitBreaker.call, CircuitBreaker.state, CircuitBreaker.on_failure, hb]
    simp [hb, Nat.not_le.mpr hk]

/-- After exactly `failure_threshold` failed calls, a fresh breaker is OPEN
with `failure_count = failure_threshold`, `success_count = 0`, and the
failure instant recorded. -/
theorem applyFailures_trips (ft : Nat) (tmo : Rat) (st : Nat)
    (nm e : String) (t0 : Rat) (hft : 0 < ft) :
    CircuitBreaker.applyFailures (CircuitBreaker.mk_ ft tmo st nm) t0 e ft =
      { CircuitBreaker.mk_ ft tmo st nm with
          state_ := CircuitState.open_,
          failure_count := ft,
          success_count := 0,
          last_failure_time := some t0 } := by
  obtain ⟨m, rfl⟩ : ∃ m, ft = m + 1 := ⟨ft - 1, (Nat.succ_pred_eq_of_pos hft).symm⟩
  rw [CircuitBreaker.applyFailures,
    applyFailures_closed (CircuitBreaker.mk_ (m + 1) tmo st nm) t0 e rfl rfl m
      (Nat.lt_succ_self m)]
  simp [CircuitBreaker.call, CircuitBreaker.state, CircuitBreaker.mk_,
    CircuitBreaker.on_failure, CircuitBreaker.trip]

/-- C1: starting from a fresh breaker with positive `failure_threshold`,
exactly `failure_threshold` consecutive failed calls leave the breaker OPEN,
and the next call, made before `timeout` has elapsed since the failures, is
rejected with `CircuitBreakerError` without invoking the operation. -/
theorem C1_threshold_failures_open (ft : Nat) (tmo : Rat) (st : Nat)
    (nm e : String) (t0 t1 : Rat) (α : Type) (outcome : CallOutcome α)
    (hft : 0 < ft) (helapsed : t1 - t0 < tmo) :
    (CircuitBreaker.applyFailures (CircuitBreaker.mk_ ft tmo st nm) t0 e ft).state_
        = CircuitState.open_ ∧
    ((CircuitBreaker.applyFailures (CircuitBreaker.mk_ ft tmo st nm) t0 e ft).call
        t1 outcome).1
        = CallResult.circuitOpen ("Circuit breaker \x27" ++ nm ++ "\x27 is OPEN") ∧
    ((CircuitBreaker.applyFailures (CircuitBreaker.mk_ ft tmo st nm) t0 e ft).call
        t1 outcome).2.2 = false := by
  rw [applyFailures_trips ft tmo st nm e t0 hft]
  refine ⟨rfl, ?_, ?_⟩ <;>
    simp [CircuitBreaker.call, CircuitBreaker.state, CircuitBreaker.mk_,
      CircuitBreaker.should_attempt_reset, not_le.mpr helapsed]

/-- Witness for C1 at `failure_threshold = 2`, `timeout = 60`. -/
theorem C1_witness :
    (0 < 2) ∧ ((1 : Rat) - 0 < 60) ∧
    ((CircuitBreaker.applyFailures (CircuitBreaker.mk_ 2 60 3 "cb") 0 "boom" 2).state_
        = CircuitState.open_ ∧
     ((CircuitBreaker.applyFailures (CircuitBreaker.mk_ 2 60 3 "cb") 0 "boom" 2).call
        1 (CallOutcome.ok (7 : Nat))).1
        = CallResult.circuitOpen ("Circuit breaker \x27" ++ "cb" ++ "\x27 is OPEN") ∧
     ((CircuitBreaker.applyFailures (CircuitBreaker.mk_ 2 60 3 "cb") 0 "boom" 2).call
        1 (CallOutcome.ok (7 : Nat))).2.2 = false) :=
  ⟨by decide, by norm_num,
    C1_threshold_failures_open 2 60 3 "cb" "boom" 0 1 Nat (CallOutcome.ok 7)
      (by decide) (by norm_num)⟩

/-- C2: while OPEN with the last failure at instant `t`, a call before
`timeout` has elapsed is rejected with `CircuitBreakerError`, does not invoke
the operation and leaves the breaker unchanged; at or after `t + timeout`
the state query lazily transitions to HALF_OPEN with `success_count = 0` and
the call is allowed through to the operation. -/
theorem C2_open_duration_gating (b : CircuitBreaker) (t : Rat) (α : Type)
    (outcome : CallOutcome α)
    (hopen : b.state_ = CircuitState.open_)
    (hlast : b.last_failure_time = some t) :
    (∀ now, now - t < b.timeout →
      (b.call now outcome).2.2 = false ∧
      (b.call now outcome).1
        = CallResult.circuitOpen ("Circuit breaker \x27" ++ b.name ++ "\x27 is OPEN") ∧
      (b.call now outcome).2.1 = b) ∧
    (∀ now, b.timeout ≤ now - t →
      (b.state now).1 = CircuitState.halfOpen ∧
      (b.state now).2.success_count = 0 ∧
      (b.call now outcome).2.2 = true) := by
  constructor
  · intro now hnow
    refine ⟨?_, ?_, ?_⟩ <;>
      simp [CircuitBreaker.call, CircuitBreaker.state,
        CircuitBreaker.should_attempt_reset, hopen, hlast, not_le.mpr hnow]
  · intro now hnow
    refine ⟨?_, ?_, ?_⟩ <;>
      cases outcome <;>
        simp [CircuitBreaker.call, CircuitBreaker.state,
          CircuitBreaker.should_attempt_reset, hopen, hlast, hnow]

/-- While HALF_OPEN with a zero success count, the first `k` successful
calls with `k < success_threshold` leave the breaker HALF_OPEN with
`success_count = k`. -/
theorem applySuccesses_halfOpen (b : CircuitBreaker) (now : Rat) {α : Type}
    (v : α) (hb : b.state_ = CircuitState.halfOpen) (hc : b.success_count = 0) :
    ∀ k, k < b.success_threshold →
      CircuitBreaker.applySuccesses b now v k = { b with success_count := k } := by
  intro k
  induction k with
  | zero =>
    intro _
    simp [CircuitBreaker.applySuccesses, ← hc]
  | succ k ih =>
    intro hk
    have hk' : k < b.success_threshold := Nat.lt_of_succ_lt hk
    rw [CircuitBreaker.applySuccesses, ih hk']
    simp only [CircuitBreaker.call, CircuitBreaker.state, CircuitBreaker.on_success, hb]
    simp [hb, Nat.not_le.mpr hk]

/-- C3: from HALF_OPEN with `success_count = 0`, exactly `success_threshold`
consecutive successful calls close the circuit with both counters 0, while a
single failed call reopens it, records the failure instant and resets
`success_count` to 0. -/
theorem C3_half_open_trials (b : CircuitBreaker) (now t : Rat) (α : Type)
    (v : α) (e : String)
    (hb : b.state_ = CircuitState.halfOpen) (hc : b.success_count = 0)
    (hst : 0 < b.success_threshold) :
    ((CircuitBreaker.applySuccesses b now v b.success_threshold).state_
        = CircuitState.closed ∧
     (CircuitBreaker.applySuccesses b now v b.success_threshold).failure_count = 0 ∧
     (CircuitBreaker.applySuccesses b now v b.success_threshold).success_count = 0) ∧
    ((b.call t (CallOutcome.err e : CallOutcome α)).2.1.state_
        = CircuitState.open_ ∧
     (b.call t (CallOutcome.err e : CallOutcome α)).2.1.last_failure_time = some t ∧
     (b.call t (CallOutcome.err e : CallOutcome α)).2.1.success_count = 0) := by
  constructor
  · obtain ⟨m, hm⟩ : ∃ m, b.success_threshold = m + 1 :=
      ⟨b.success_threshold - 1, (Nat.succ_pred_eq_of_pos hst).symm⟩
    rw [hm, CircuitBreaker.applySuccesses,
      applySuccesses_halfOpen b now v hb hc m (hm ▸ Nat.lt_succ_self m)]
    refine ⟨?_, ?_, ?_⟩ <;>
      simp [CircuitBreaker.call, CircuitBreaker.state, CircuitBreaker.on_success,
        CircuitBreaker.reset_, hb, hm]
  · refine ⟨?_, ?_, ?_⟩ <;>
      simp [CircuitBreaker.call, CircuitBreaker.state, CircuitBreaker.on_failure,
        CircuitBreaker.trip, hb]

/-- Witness for C3 on `halfOpenBreaker`. -/
theorem C3_witness :
    (halfOpenBreaker.state_ = CircuitState.halfOpen) ∧
    (halfOpenBreaker.success_count = 0) ∧
    (0 < halfOpenBreaker.success_threshold) ∧
    (((CircuitBreaker.applySuccesses halfOpenBreaker 70 (5 : Nat)
          halfOpenBreaker.success_threshold).state_ = CircuitState.closed ∧
      (CircuitBreaker.applySuccesses halfOpenBreaker 70 (5 : Nat)
          halfOpenBreaker.success_threshold).failure_count = 0 ∧
      (CircuitBreaker.applySuccesses halfOpenBreaker 70 (5 : Nat)
          halfOpenBreaker.success_threshold).success_count = 0) ∧
     ((halfOpenBreaker.call 70 (CallOutcome.err "boom" : CallOutcome Nat)).2.1.state_
          = CircuitState.open_ ∧
      (halfOpenBreaker.call 70 (CallOutcome.err "boom" : CallOutcome Nat)).2.1.last_failure_time
          = some 70 ∧
      (halfOpenBreaker.call 70 (CallOutcome.err "boom" : CallOutcome Nat)).2.1.success_count
          = 0)) :=
  ⟨by decide, by decide, by decide,
    C3_half_open_trials halfOpenBreaker 70 70 Nat 5 "boom"
      (by decide) (by decide) (by decide)⟩

/-- C4 as stated is false: tripping CLOSED → OPEN resets only
`success_count`; with `failure_threshold = 1`, one failed call transitions a
fresh breaker to OPEN with `failure_count = 1`, not 0. -/
theorem C4_counterexample :
    ((CircuitBreaker.mk_ 1 60 2 "cb").call 0
        (CallOutcome.err "boom" : CallOutcome Unit)).2.1.state_
      = CircuitState.open_ ∧
    ((CircuitBreaker.mk_ 1 60 2 "cb").call 0
        (CallOutcome.err "boom" : CallOutcome Unit)).2.1.failure_count = 1 := by
  decide

/-- C4 amended: every state transition resets `success_count` to 0, but
`failure_count` is zeroed only by the transitions to CLOSED (`_reset`); the
trip to OPEN and the lazy move to HALF_OPEN leave `failure_count` as it
stands. -/
theorem C4_amended_transition_counters (b : CircuitBreaker) (now : Rat) :
    (b.trip.success_count = 0 ∧ b.trip.failure_count = b.failure_count) ∧
    (b.reset_.success_count = 0 ∧ b.reset_.failure_count = 0) ∧
    ((b.state now).2.success_count = 0 ∨ (b.state now).2 = b) ∧
    (b.state now).2.failure_count = b.failure_count := by
  refine ⟨⟨rfl, rfl⟩, ⟨rfl, rfl⟩, ?_, ?_⟩
  · by_cases h : b.state_ = CircuitState.open_ ∧ b.should_attempt_reset now
    · exact Or.inl (by simp [CircuitBreaker.state, h])
    · exact Or.inr (by simp [CircuitBreaker.state, h])
  · by_cases h : b.state_ = CircuitState.open_ ∧ b.should_attempt_reset now
    · simp [CircuitBreaker.state, h]
    · simp [CircuitBreaker.state, h]

/-- C9: manual `reset()` from any state yields CLOSED with both counters 0
and is idempotent. -/
theorem C9_reset_closes_idempotent (b : CircuitBreaker) :
    b.reset.state_ = CircuitState.closed ∧
    b.reset.failure_count = 0 ∧
    b.reset.success_count = 0 ∧
    b.reset.reset = b.reset :=
  ⟨rfl, rfl, rfl, rfl⟩

/-- C10: `get_stats` returns the raw field values and leaves the breaker
untouched; in particular an OPEN breaker whose open period has elapsed is
still reported as OPEN by `get_stats`, while the state query performs the
lazy transition to HALF_OPEN. -/
theorem C10_get_stats_pure (b : CircuitBreaker) (now : Rat)
    (hopen : b.state_ = CircuitState.open_)
    (helapsed : b.should_attempt_reset now = true) :
    b.get_stats.2 = b ∧
    b.get_stats.1.state = "open" ∧
    b.get_stats.1.failure_count = b.failure_count ∧
    b.get_stats.1.success_count = b.success_count ∧
    b.get_stats.1.last_failure_time = b.last_failure_time ∧
    (b.state now).1 = CircuitState.halfOpen := by
  refine ⟨rfl, ?_, rfl, rfl, rfl, ?_⟩
  · simp [CircuitBreaker.get_stats, hopen, CircuitState.value]
  · simp [CircuitBreaker.state, hopen, helapsed]

/-- Witness for C10 on `openBreaker` at instant 60, when the open period has
just elapsed. -/
theorem C10_witness :
    (openBreaker.state_ = CircuitState.open_) ∧
    (openBreaker.should_attempt_reset 60 = true) ∧
    (openBreaker.get_stats.2 = openBreaker ∧
     openBreaker.get_stats.1.state = "open" ∧
     openBreaker.get_stats.1.failure_count = openBreaker.failure_count ∧
     openBreaker.get_stats.1.success_count = openBreaker.success_count ∧
     openBreaker.get_stats.1.last_failure_time = openBreaker.last_failure_time ∧
     (openBreaker.state 60).1 = CircuitState.halfOpen) :=
  ⟨by decide,
   by norm_num [CircuitBreaker.should_attempt_reset, openBreaker, CircuitBreaker.mk_],
   C10_get_stats_pure openBreaker 60 (by decide)
     (by norm_num [CircuitBreaker.should_attempt_reset, openBreaker, CircuitBreaker.mk_])⟩

/-- Witness for C2 on `openBreaker`. -/
theorem C2_witness :
    (openBreaker.state_ = CircuitState.open_) ∧
    (openBreaker.last_failure_time = some 0) ∧
    ((∀ now, now - 0 < openBreaker.timeout →
      (openBreaker.call now (CallOutcome.ok (1 : Nat))).2.2 = false ∧
      (openBreaker.call now (CallOutcome.ok (1 : Nat))).1
        = CallResult.circuitOpen
            ("Circuit breaker \x27" ++ openBreaker.name ++ "\x27 is OPEN") ∧
      (openBreaker.call now (CallOutcome.ok (1 : Nat))).2.1 = openBreaker) ∧
    (∀ now, openBreaker.timeout ≤ now - 0 →
      (openBreaker.state now).1 = CircuitState.halfOpen ∧
      (openBreaker.state now).2.success_count = 0 ∧
      (openBreaker.call now (CallOutcome.ok (1 : Nat))).2.2 = true)) :=
  ⟨by decide, by decide,
    C2_open_duration_gating openBreaker 0 Nat (CallOutcome.ok 1)
      (by decide) (by decide)⟩

/-! ## Retry lemmas and claims -/

/-- If every attempt from `attempt` on fails with a retryable error, the
`execute` loop performs all `fuel` remaining invocations and ends with
`RetryExhaustedError` chaining the error of the last attempt. -/
theorem execLoop_all_retryable_fail (r : Retry) {α : Type}
    (ops : Nat → CallOutcome α) :
    ∀ fuel attempt last cur, 0 < fuel →
      (∀ i, i < fuel → ∃ e, ops (attempt + i) = CallOutcome.err e ∧
        r.retryable e = true) →
      ∃ elast, ops (attempt + fuel - 1) = CallOutcome.err elast ∧
        r.execLoop ops last attempt cur fuel
          = (RetryResult.exhausted (some elast), fuel, attempt + fuel) := by
  intro fuel
  induction fuel with
  | zero =>
    intro attempt last cur h _
    exact absurd h (lt_irrefl 0)
  | succ f ih =>
    intro attempt last cur _ hall
    obtain ⟨e0, he0, hr0⟩ := hall 0 (Nat.succ_pos f)
    rw [Nat.add_zero] at he0
    by_cases hf : f = 0
    · subst hf
      exact ⟨e0, by simpa using he0, by simp [Retry.execLoop, he0, hr0]⟩
    · have hfp : 0 < f := Nat.pos_of_ne_zero hf
      obtain ⟨elast, hel, heq⟩ :=
        ih (attempt + 1) (some e0) (attempt + 1) hfp
          (fun i hi => by
            obtain ⟨e, he, hr⟩ := hall (i + 1) (Nat.succ_lt_succ hi)
            exact ⟨e, by rw [show attempt + 1 + i = attempt + (i + 1) by omega]; exact he, hr⟩)
      refine ⟨elast, ?_, ?_⟩
      · rw [show attempt + (f + 1) - 1 = attempt + 1 + f - 1 by omega]
        exact hel
      · simp [Retry.execLoop, he0, hr0, hf, heq]
        omega

/-- If the first `j` attempts from `attempt` fail retryably and attempt
`attempt + j` fails with a non-retryable error, the loop stops right there:
the error is re-raised after `j + 1` invocations. -/
theorem execLoop_nonretryable (r : Retry) {α : Type}
    (ops : Nat → CallOutcome α) :
    ∀ j fuel attempt last cur, j < fuel →
      (∀ i, i < j → ∃ e, ops (attempt + i) = CallOutcome.err e ∧
        r.retryable e = true) →
      ∀ e, ops (attempt + j) = CallOutcome.err e → r.retryable e = false →
        r.execLoop ops last attempt cur fuel
          = (RetryResult.raised e, j + 1, attempt + j + 1) := by
  intro j
  induction j with
  | zero =>
    intro fuel attempt last cur hj _ e he hnr
    obtain ⟨f, rfl⟩ : ∃ f, fuel = f + 1 :=
      ⟨fuel - 1, (Nat.succ_pred_eq_of_pos hj).symm⟩
    rw [Nat.add_zero] at he
    simp [Retry.execLoop, he, hnr]
  | succ j ih =>
    intro fuel attempt last cur hj hall e he hnr
    obtain ⟨f, rfl⟩ : ∃ f, fuel = f + 1 :=
      ⟨fuel - 1, (Nat.succ_pred_eq_of_pos (Nat.lt_of_le_of_lt (Nat.zero_le _) hj)).symm⟩
    obtain ⟨e0, he0, hr0⟩ := hall 0 (Nat.succ_pos j)
    rw [Nat.add_zero] at he0
    have hf : f ≠ 0 := by omega
    have hrec :=
      ih f (attempt + 1) (some e0) (attempt + 1) (by omega)
        (fun i hi => by
          obtain ⟨e1, he1, hr1⟩ := hall (i + 1) (Nat.succ_lt_succ hi)
          exact ⟨e1, by rw [show attempt + 1 + i = attempt + (i + 1) by omega]; exact he1, hr1⟩)
        e (by rw [show attempt + 1 + j = attempt + (j + 1) by omega]; exact he) hnr
    simp [Retry.execLoop, he0, hr0, hf, hrec]
    omega

/-- C5: with `max_attempts ≥ 1`, an operation failing retryably on every
attempt is invoked exactly `max_attempts` times and `execute` ends with
`RetryExhaustedError` chaining the last underlying error; an attempt failing
with a non-retryable error is re-raised unchanged at once, with no further
invocations and no `RetryExhaustedError`. -/
theorem C5_retry_execute (r : Retry) (α : Type) (ops : Nat → CallOutcome α)
    (hma : 1 ≤ r.max_attempts) :
    ((∀ i, i < r.max_attempts → ∃ e, ops i = CallOutcome.err e ∧
        r.retryable e = true) →
      ∃ elast, ops (r.max_attempts - 1) = CallOutcome.err elast ∧
        (r.execute ops).1 = RetryResult.exhausted (some elast) ∧
        (r.execute ops).2.1 = r.max_attempts) ∧
    (∀ j, j < r.max_attempts →
      (∀ i, i < j → ∃ e, ops i = CallOutcome.err e ∧ r.retryable e = true) →
      ∀ e, ops j = CallOutcome.err e → r.retryable e = false →
        (r.execute ops).1 = RetryResult.raised e ∧
        (r.execute ops).2.1 = j + 1) := by
  constructor
  · intro hall
    obtain ⟨elast, hel, heq⟩ :=
      execLoop_all_retryable_fail r ops r.max_attempts 0 none r.attempts hma
        (fun i hi => by simpa using hall i hi)
    refine ⟨elast, by simpa using hel, ?_, ?_⟩ <;> simp [Retry.execute, heq]
  · intro j hj hall e he hnr
    have heq :=
      execLoop_nonretryable r ops j r.max_attempts 0 none r.attempts hj
        (fun i hi => by simpa using hall i hi) e (by simpa using he) hnr
    exact ⟨by simp [Retry.execute, heq], by simp [Retry.execute, heq]⟩

/-- The retry policy used as concrete witness input. -/
def retryAlways : Retry := Retry.mk_ 3 1 2 (fun _ => true)

/-- An operation failing identically on every attempt. -/
def failingOps : Nat → CallOutcome Nat := fun _ => CallOutcome.err "boom"

/-- Witness for C5 on a 3-attempt policy whose operation always fails. -/
theorem C5_witness :
    (1 ≤ retryAlways.max_attempts) ∧
    (((∀ i, i < retryAlways.max_attempts → ∃ e, failingOps i = CallOutcome.err e ∧
        retryAlways.retryable e = true) →
      ∃ elast, failingOps (retryAlways.max_attempts - 1) = CallOutcome.err elast ∧
        (retryAlways.execute failingOps).1 = RetryResult.exhausted (some elast) ∧
        (retryAlways.execute failingOps).2.1 = retryAlways.max_attempts) ∧
    (∀ j, j < retryAlways.max_attempts →
      (∀ i, i < j → ∃ e, failingOps i = CallOutcome.err e ∧
        retryAlways.retryable e = true) →
      ∀ e, failingOps j = CallOutcome.err e → retryAlways.retryable e = false →
        (retryAlways.execute failingOps).1 = RetryResult.raised e ∧
        (retryAlways.execute failingOps).2.1 = j + 1)) :=
  ⟨by decide, C5_retry_execute retryAlways Nat failingOps (by decide)⟩

/-- C8 as stated is false: `Retry.execute` writes the running attempt number
into `self.attempts`, so a policy with `attempts = 0` has `attempts = 1`
after one successful execution — shared state left on the policy object. -/
theorem C8_counterexample :
    (Retry.mk_ 1 1 2 (fun _ => true)).attempts = 0 ∧
    ((Retry.mk_ 1 1 2 (fun _ => true)).execute
        (fun _ => CallOutcome.ok (0 : Nat))).2.2.attempts = 1 :=
  ⟨rfl, rfl⟩

/-- C8 amended: `execute` leaves every configuration field of the policy
object unchanged; only the `attempts` field is overwritten (with the number
of the last attempt started), so attempt-count state does persist on the
shared policy object. -/
theorem C8_amended_config_frame (r : Retry) (α : Type)
    (ops : Nat → CallOutcome α) :
    (r.execute ops).2.2.max_attempts = r.max_attempts ∧
    (r.execute ops).2.2.initial_delay = r.initial_delay ∧
    (r.execute ops).2.2.backoff_factor = r.backoff_factor ∧
    (r.execute ops).2.2.retryable = r.retryable := by
  cases hq : r.execLoop ops none 0 r.attempts r.max_attempts with
  | mk res rest =>
    cases rest with
    | mk n fin => simp [Retry.execute, hq]

/-! ## Health monitor lemmas and claims -/

/-- Once the running overall status is UNHEALTHY it never changes again. -/
theorem stepStatus_unhealthy (crit : Bool) (res : CheckResult) :
    stepStatus HealthStatus.unhealthy crit res = HealthStatus.unhealthy := by
  unfold stepStatus
  split
  · split
    · rfl
    · simp
  · rfl

/-- The fold keeps UNHEALTHY to the end. -/
theorem checkAllFrom_unhealthy (l : List CheckRun) :
    (checkAllFrom HealthStatus.unhealthy l).1 = HealthStatus.unhealthy := by
  induction l with
  | nil => rfl
  | cons c rest ih =>
    simp only [checkAllFrom, stepStatus_unhealthy]
    exact ih

/-- From DEGRADED, the fold ends UNHEALTHY exactly when some remaining
critical check is unhealthy. -/
theorem checkAllFrom_degraded (l : List CheckRun) :
    (checkAllFrom HealthStatus.degraded l).1 =
      if l.any (fun c => runUnhealthy c && c.hc.critical) then
        HealthStatus.unhealthy
      else HealthStatus.degraded := by
  induction l with
  | nil => rfl
  | cons c rest ih =>
    simp only [checkAllFrom, List.any_cons]
    by_cases hcu : runUnhealthy c = true
    · have hres : (c.hc.check c.outcome c.start c.duration).1.status
          = HealthStatus.unhealthy.value := by
        simpa only [runUnhealthy, decide_eq_true_eq] using hcu
      by_cases hcrit : c.hc.critical = true
      · simp [stepStatus, hres, hcrit, hcu, checkAllFrom_unhealthy]
      · simp only [Bool.not_eq_true] at hcrit
        simp [stepStatus, hres, hcrit, hcu, ih]
    · simp only [Bool.not_eq_true] at hcu
      have hres : ¬ ((c.hc.check c.outcome c.start c.duration).1.status
          = HealthStatus.unhealthy.value) := by
        simpa only [runUnhealthy, decide_eq_false_iff_not] using hcu
      simp [stepStatus, hres, hcu, ih]

/-- From HEALTHY, the fold computes exactly the documented aggregation. -/
theorem checkAllFrom_healthy (l : List CheckRun) :
    (checkAllFrom HealthStatus.healthy l).1 =
      if l.any (fun c => runUnhealthy c && c.hc.critical) then
        HealthStatus.unhealthy
      else if l.any runUnhealthy then HealthStatus.degraded
      else HealthStatus.healthy := by
  induction l with
  | nil => rfl
  | cons c rest ih =>
    simp only [checkAllFrom, List.any_cons]
    by_cases hcu : runUnhealthy c = true
    · have hres : (c.hc.check c.outcome c.start c.duration).1.status
          = HealthStatus.unhealthy.value := by
        simpa only [runUnhealthy, decide_eq_true_eq] using hcu
      by_cases hcrit : c.hc.critical = true
      · simp [stepStatus, hres, hcrit, hcu, checkAllFrom_unhealthy]
      · simp only [Bool.not_eq_true] at hcrit
        simp [stepStatus, hres, hcrit, hcu, checkAllFrom_degraded]
    · simp only [Bool.not_eq_true] at hcu
      have hres : ¬ ((c.hc.check c.outcome c.start c.duration).1.status
          = HealthStatus.unhealthy.value) := by
        simpa only [runUnhealthy, decide_eq_false_iff_not] using hcu
      simp [stepStatus, hres, hcu, ih]

/-- `List.any` only depends on the multiset of elements. -/
theorem perm_any_eq {α : Type} {l1 l2 : List α} (h : l1.Perm l2)
    (p : α → Bool) : l1.any p = l2.any p := by
  apply Bool.eq_iff_iff.mpr
  simp only [List.any_eq_true]
  exact ⟨fun ⟨x, hx, hp⟩ => ⟨x, h.mem_iff.mp hx, hp⟩,
         fun ⟨x, hx, hp⟩ => ⟨x, h.mem_iff.mpr hx, hp⟩⟩

/-- C6: `check_all` reports UNHEALTHY exactly when some critical check is
unhealthy, else DEGRADED when any check is unhealthy, else HEALTHY — and
the overall status is invariant under reordering the registered checks. -/
theorem C6_check_all_aggregation (checks : List CheckRun) :
    ((check_all checks).1 =
      if checks.any (fun c => runUnhealthy c && c.hc.critical) then
        HealthStatus.unhealthy
      else if checks.any runUnhealthy then HealthStatus.degraded
      else HealthStatus.healthy) ∧
    (∀ checks2, checks.Perm checks2 →
      (check_all checks).1 = (check_all checks2).1) := by
  refine ⟨checkAllFrom_healthy checks, fun l2 hp => ?_⟩
  rw [check_all, check_all, checkAllFrom_healthy, checkAllFrom_healthy,
    perm_any_eq hp, perm_any_eq hp]

/-- A critical check whose probe reports unhealthy, as concrete input. -/
def dbCheckRun : CheckRun := ⟨HealthCheck.mk_ "db" true 5, CallOutcome.ok false, 0, 1⟩

/-- A non-critical check whose probe raises, as concrete input. -/
def cacheCheckRun : CheckRun :=
  ⟨HealthCheck.mk_ "cache" false 5, CallOutcome.err "down", 0, 1⟩

/-- Witness for C6 on the spec's two-check example. -/
theorem C6_witness :
    ((check_all [dbCheckRun, cacheCheckRun]).1 =
      if [dbCheckRun, cacheCheckRun].any (fun c => runUnhealthy c && c.hc.critical) then
        HealthStatus.unhealthy
      else if [dbCheckRun, cacheCheckRun].any runUnhealthy then HealthStatus.degraded
      else HealthStatus.healthy) ∧
    (∀ checks2, [dbCheckRun, cacheCheckRun].Perm checks2 →
      (check_all [dbCheckRun, cacheCheckRun]).1 = (check_all checks2).1) :=
  C6_check_all_aggregation [dbCheckRun, cacheCheckRun]

/-- C7 as stated is false: the check's `timeout` budget is never consulted,
so a probe returning a truthy result after a duration exceeding the budget
is still classified HEALTHY. -/
theorem C7_counterexample :
    ((HealthCheck.mk_ "db" false 5).check (CallOutcome.ok true) 0 10).1.status
        = "healthy" ∧
    (HealthCheck.mk_ "db" false 5).timeout < 10 := by
  exact ⟨rfl, by norm_num [HealthCheck.mk_]⟩

/-- C7 amended: a probe raising an error or returning a falsy result is
classified UNHEALTHY (a raise is converted into a result record carrying the
error message, never propagated), and a truthy result is classified HEALTHY,
in both cases regardless of the measured duration and of the stored
`timeout` budget. -/
theorem C7_amended_classification (hc : HealthCheck) (start dur : Rat) :
    (∀ e, (hc.check (CallOutcome.err e) start dur).1.status
            = HealthStatus.unhealthy.value ∧
          (hc.check (CallOutcome.err e) start dur).1.error = some e) ∧
    ((hc.check (CallOutcome.ok false) start dur).1.status
        = HealthStatus.unhealthy.value) ∧
    ((hc.check (CallOutcome.ok true) start dur).1.status
        = HealthStatus.healthy.value) ∧
    (∀ b, (hc.check (CallOutcome.ok b) start dur).1.error = none) :=
  ⟨fun _ => ⟨rfl, rfl⟩, rfl, rfl, fun _ => rfl⟩
